import Mathlib

/-!
Verification of the grade-aggregation and ranking computation of the
IsomoLink application (`src/app.py`), embedded shallowly in Lean 4.

Numbers: Python floats are modelled as exact rationals `ℚ`; `round(x, 1)`
is modelled as round-half-to-even at one decimal place (`round1`), which is
Python's rounding mode on exact halves.

The three operations specified:
* `calculate_gpa` (spec name `compute_gpa`): `src/app.py` lines 79–85;
* the leaderboard query (spec name `compute_leaderboard`): the SQL query in
  `dashboard` (lines 163–170) / `leaderboard_page` (lines 259–262) —
  inner-join users↔grades, group by student, `avg(score)`, order descending,
  limit; modelled with a stable sort on the list of (student, grades) pairs;
* the rank scan (spec name `compute_rank`): the loop in `dashboard`
  (lines 174–187), returning a 1-based index or an "unranked" sentinel
  (modelled as `Option ℕ` with `none` for the sentinel `"--"`).
-/

/-- A grade record, per the `Grade` model in `src/app.py`
(`student_id`, `subject`, `score`, `weight`). -/
structure Grade where
  student_id : ℕ
  subject : String
  score : ℚ
  weight : ℚ
deriving DecidableEq, Repr

/-- Round a rational to the nearest integer, halves to even
(Python 3 `round` semantics on exact values). -/
def roundHalfEven (q : ℚ) : ℤ :=
  let n := ⌊q⌋
  let frac := q - (n : ℚ)
  if frac < 1/2 then n
  else if 1/2 < frac then n + 1
  else if n % 2 = 0 then n else n + 1

/-- Python's `round(x, 1)`: round to one decimal place, halves to even. -/
def round1 (q : ℚ) : ℚ := (roundHalfEven (q * 10) : ℚ) / 10

/-- Weighted score total: `sum(g.score * g.weight for g in grades)`
(`src/app.py` line 82). -/
def totalScore (grades : List Grade) : ℚ :=
  (grades.map (fun g => g.score * g.weight)).sum

/-- Weight total: `sum(g.weight for g in grades)` (`src/app.py` line 83). -/
def totalWeight (grades : List Grade) : ℚ :=
  (grades.map (fun g => g.weight)).sum

/-- `calculate_gpa` from `src/app.py` lines 79–85, applied to the list of
grade records the query returns: `0.0` on an empty list, `0.0` when the
total weight is zero, otherwise the weighted average rounded to one
decimal. -/
def calculate_gpa (grades : List Grade) : ℚ :=
  if grades.isEmpty then 0
  else if totalWeight grades = 0 then 0
  else round1 (totalScore grades / totalWeight grades)

/-- Plain (unweighted) average of scores, as computed by the SQL
`func.avg(Grade.score)` over a student's grade group. SQL `avg` over an
inner-join group always sees at least one row, so the division is real
whenever the value is used. -/
def avgScore (grades : List Grade) : ℚ :=
  (grades.map (fun g => g.score)).sum / (grades.length : ℚ)

/-- The leaderboard sort key: descending by average score (SQL
`order_by(func.avg(Grade.score).desc())`). -/
def lbOrder (a b : ℕ × ℚ) : Prop := b.2 ≤ a.2

instance : DecidableRel lbOrder := fun a b => inferInstanceAs (Decidable (b.2 ≤ a.2))

instance : IsTotal (ℕ × ℚ) lbOrder := ⟨fun a b => le_total b.2 a.2⟩

instance : IsTrans (ℕ × ℚ) lbOrder := ⟨fun _ _ _ h1 h2 => le_trans h2 h1⟩

/-- The grouped rows of the leaderboard query before ordering:
`join(Grade)` is an inner join, so students without grades are dropped;
`group_by(User.id)` with `func.avg(Grade.score)` yields one
(student, plain average) row per student with grades. -/
def leaderboardEntries (all : List (ℕ × List Grade)) : List (ℕ × ℚ) :=
  (all.filter (fun p => !p.2.isEmpty)).map (fun p => (p.1, avgScore p.2))

/-- The full ranked list (`leaderboard_query.all()` in `dashboard`):
grouped rows ordered descending by average score. SQL leaves tie order
unspecified; modelled by a stable sort as the spec recommends. -/
def full_leaderboard (all : List (ℕ × List Grade)) : List (ℕ × ℚ) :=
  List.insertionSort lbOrder (leaderboardEntries all)

/-- The truncated leaderboard (`leaderboard_query.limit(n).all()`);
`n = 5` in `dashboard`, `n = 50` in `leaderboard_page`. -/
def compute_leaderboard (all : List (ℕ × List Grade)) (limit : ℕ) : List (ℕ × ℚ) :=
  (full_leaderboard all).take limit

/-- The rank scan of `dashboard` lines 176–181: `my_rank = 0`, then for each
entry in order, if its id matches, set `my_rank = index + 1` and break.
The accumulator `idx` is the current 0-based index. -/
def rankLoop (sid : ℕ) : List (ℕ × ℚ) → ℕ → ℕ
  | [], _ => 0
  | p :: rest, idx => if p.1 = sid then idx + 1 else rankLoop sid rest (idx + 1)

/-- `compute_rank`: the rank scan followed by the sentinel translation of
`dashboard` lines 184–185 (`if my_rank == 0: my_rank = "--"`). The string
sentinel `"--"` ("unranked") is modelled as `none`. -/
def compute_rank (sid : ℕ) (ranked : List (ℕ × ℚ)) : Option ℕ :=
  let r := rankLoop sid ranked 0
  if r = 0 then none else some r

/-- Multiply every weight by a constant, leaving scores unchanged. -/
def scaleWeights (c : ℚ) (grades : List Grade) : List Grade :=
  grades.map fun g => { g with weight := c * g.weight }

/-- Replace every weight according to an arbitrary function of the grade,
leaving scores unchanged. -/
def reweight (f : Grade → ℚ) (grades : List Grade) : List Grade :=
  grades.map fun g => { g with weight := f g }

/-- The constant weight-assignment, for instantiating `reweight`. -/
def constWeight (c : ℚ) : Grade → ℚ := fun _ => c

/-! ### Helper lemmas -/

lemma totalScore_nil : totalScore [] = 0 := rfl

lemma totalScore_cons (g : Grade) (t : List Grade) :
    totalScore (g :: t) = g.score * g.weight + totalScore t := by
  simp [totalScore]

lemma totalWeight_nil : totalWeight [] = 0 := rfl

lemma totalWeight_cons (g : Grade) (t : List Grade) :
    totalWeight (g :: t) = g.weight + totalWeight t := by
  simp [totalWeight]

lemma calculate_gpa_of_ne (grades : List Grade) (h1 : grades ≠ [])
    (h2 : totalWeight grades ≠ 0) :
    calculate_gpa grades = round1 (totalScore grades / totalWeight grades) := by
  have he : grades.isEmpty = false := by
    cases grades with
    | nil => exact absurd rfl h1
    | cons a t => rfl
  simp [calculate_gpa, he, h2]

lemma totalScore_scaleWeights (c : ℚ) (l : List Grade) :
    totalScore (scaleWeights c l) = c * totalScore l := by
  induction l with
  | nil => simp [totalScore, scaleWeights]
  | cons a t ih =>
    have : scaleWeights c (a :: t) = { a with weight := c * a.weight } :: scaleWeights c t := rfl
    rw [this, totalScore_cons, totalScore_cons, ih]
    ring

lemma totalWeight_scaleWeights (c : ℚ) (l : List Grade) :
    totalWeight (scaleWeights c l) = c * totalWeight l := by
  induction l with
  | nil => simp [totalWeight, scaleWeights]
  | cons a t ih =>
    have : scaleWeights c (a :: t) = { a with weight := c * a.weight } :: scaleWeights c t := rfl
    rw [this, totalWeight_cons, totalWeight_cons, ih]
    ring

/-! ### Claims C1, C2, C6, C8 about `calculate_gpa` -/

/-- C1: for every non-empty grade list with non-zero total weight,
`calculate_gpa` returns `round(sum(score*weight) / sum(weight), 1)`; and on
the spec's concrete input `[{85,1},{72,1},{90,0.5}]` it returns `80.8`. -/
theorem C1_gpa_formula (grades : List Grade) (h1 : grades ≠ [])
    (h2 : totalWeight grades ≠ 0) :
    calculate_gpa grades = round1 (totalScore grades / totalWeight grades) ∧
    calculate_gpa [⟨1, "a", 85, 1⟩, ⟨1, "b", 72, 1⟩, ⟨1, "c", 90, 1/2⟩] = 808/10 := by
  refine ⟨calculate_gpa_of_ne grades h1 h2, ?_⟩
  norm_num [calculate_gpa, totalScore, totalWeight, round1, roundHalfEven]

/-- Witness for C1 at the spec's concrete input. -/
theorem C1_gpa_formula_witness :
    calculate_gpa [⟨1, "a", 85, 1⟩, ⟨1, "b", 72, 1⟩, ⟨1, "c", 90, 1/2⟩]
        = round1 (totalScore [⟨1, "a", 85, 1⟩, ⟨1, "b", 72, 1⟩, ⟨1, "c", 90, 1/2⟩]
            / totalWeight [⟨1, "a", 85, 1⟩, ⟨1, "b", 72, 1⟩, ⟨1, "c", 90, 1/2⟩]) ∧
    calculate_gpa [⟨1, "a", 85, 1⟩, ⟨1, "b", 72, 1⟩, ⟨1, "c", 90, 1/2⟩] = 808/10 :=
  C1_gpa_formula [⟨1, "a", 85, 1⟩, ⟨1, "b", 72, 1⟩, ⟨1, "c", 90, 1/2⟩]
    (by simp) (by norm_num [totalWeight])

/-- C2: on an empty grade list, or one whose total weight is zero,
`calculate_gpa` returns `0.0` (no division by zero is reached). -/
theorem C2_zero_weight_guard (grades : List Grade)
    (h : grades = [] ∨ totalWeight grades = 0) :
    calculate_gpa grades = 0 := by
  rcases h with h | h
  · subst h; rfl
  · simp [calculate_gpa, h]

/-- Witness for C2: two grades of opposite weights, total weight zero,
non-zero scores; the GPA is reported as `0`. -/
theorem C2_zero_weight_guard_witness :
    calculate_gpa [⟨1, "x", 50, -1⟩, ⟨1, "y", 70, 1⟩] = 0 :=
  C2_zero_weight_guard [⟨1, "x", 50, -1⟩, ⟨1, "y", 70, 1⟩]
    (Or.inr (by norm_num [totalWeight]))

/-- C6: `calculate_gpa` is invariant under any permutation of its input:
emptiness and both sums are permutation-invariant. -/
theorem C6_perm_invariant (l₁ l₂ : List Grade) (h : l₁.Perm l₂) :
    calculate_gpa l₁ = calculate_gpa l₂ := by
  have hs : totalScore l₁ = totalScore l₂ := List.Perm.sum_eq (h.map _)
  have hw : totalWeight l₁ = totalWeight l₂ := List.Perm.sum_eq (h.map _)
  have hlen := h.length_eq
  have he : l₁.isEmpty = l₂.isEmpty := by
    cases l₁ <;> cases l₂ <;> simp_all
  rw [calculate_gpa, calculate_gpa, hs, hw, he]

/-- Witness for C6: swapping two grades leaves the GPA unchanged. -/
theorem C6_perm_invariant_witness :
    calculate_gpa [⟨1, "a", 85, 1⟩, ⟨1, "c", 90, 1/2⟩]
      = calculate_gpa [⟨1, "c", 90, 1/2⟩, ⟨1, "a", 85, 1⟩] :=
  C6_perm_invariant _ _ (List.Perm.swap _ _ _)

/-- C8: `calculate_gpa` is total and takes negative scores and weights at
face value: on any list containing a negative score or weight, as long as
the total weight is non-zero, the result is still the rounded weighted
average, with no validation or error path. -/
theorem C8_face_value (grades : List Grade)
    (hneg : ∃ g ∈ grades, g.score < 0 ∨ g.weight < 0)
    (hw : totalWeight grades ≠ 0) :
    calculate_gpa grades = round1 (totalScore grades / totalWeight grades) := by
  obtain ⟨g, hg, -⟩ := hneg
  have h1 : grades ≠ [] := by
    rintro rfl
    simp at hg
  exact calculate_gpa_of_ne grades h1 hw

/-- Witness for C8: a grade with a negative score is averaged in at face
value. -/
theorem C8_face_value_witness :
    calculate_gpa [⟨1, "a", -50, 1⟩, ⟨1, "b", 80, 1⟩]
      = round1 (totalScore [⟨1, "a", -50, 1⟩, ⟨1, "b", 80, 1⟩]
          / totalWeight [⟨1, "a", -50, 1⟩, ⟨1, "b", 80, 1⟩]) :=
  C8_face_value [⟨1, "a", -50, 1⟩, ⟨1, "b", 80, 1⟩]
    ⟨⟨1, "a", -50, 1⟩, by simp, Or.inl (by norm_num)⟩
    (by norm_num [totalWeight])

/-! ### Claim C9: scale invariance of the GPA in the weights -/

/-- C9: multiplying every weight by a positive constant does not change the
GPA (it depends only on the relative weights); and a single grade with
positive weight has GPA `round(score, 1)` whatever that weight is. -/
theorem C9_scale_invariant (c : ℚ) (grades : List Grade) (g : Grade)
    (hc : 0 < c) (h1 : grades ≠ []) (h2 : totalWeight grades ≠ 0)
    (hg : 0 < g.weight) :
    calculate_gpa (scaleWeights c grades) = calculate_gpa grades ∧
    calculate_gpa [g] = round1 g.score := by
  have hc0 : c ≠ 0 := ne_of_gt hc
  constructor
  · have h1s : scaleWeights c grades ≠ [] := by
      cases grades with
      | nil => exact absurd rfl h1
      | cons a t => simp [scaleWeights]
    have h2s : totalWeight (scaleWeights c grades) ≠ 0 := by
      rw [totalWeight_scaleWeights]
      exact mul_ne_zero hc0 h2
    rw [calculate_gpa_of_ne _ h1s h2s, calculate_gpa_of_ne _ h1 h2,
      totalScore_scaleWeights, totalWeight_scaleWeights,
      mul_div_mul_left _ _ hc0]
  · have hg0 : g.weight ≠ 0 := ne_of_gt hg
    have hw1 : totalWeight [g] ≠ 0 := by
      rw [totalWeight_cons, totalWeight_nil, add_zero]
      exact hg0
    rw [calculate_gpa_of_ne _ (by simp) hw1, totalScore_cons, totalScore_nil,
      totalWeight_cons, totalWeight_nil, add_zero, add_zero,
      mul_div_cancel_right₀ _ hg0]

/-- Witness for C9: doubling the weights of a two-grade list keeps the GPA,
and a single grade of weight 4 has GPA `round(score, 1)`. -/
theorem C9_scale_invariant_witness :
    calculate_gpa (scaleWeights 2 [⟨1, "a", 85, 1⟩, ⟨1, "c", 90, 1/2⟩])
        = calculate_gpa [⟨1, "a", 85, 1⟩, ⟨1, "c", 90, 1/2⟩] ∧
    calculate_gpa [⟨2, "b", 77, 4⟩] = round1 (Grade.score ⟨2, "b", 77, 4⟩) :=
  C9_scale_invariant 2 [⟨1, "a", 85, 1⟩, ⟨1, "c", 90, 1/2⟩] ⟨2, "b", 77, 4⟩
    (by norm_num) (by simp) (by norm_num [totalWeight]) (by norm_num)

/-! ### Claims C5 and C3 about the leaderboard -/

/-- C5: the truncated leaderboard has length at most `limit` and is sorted
non-increasingly by average score. -/
theorem C5_leaderboard_sorted (all : List (ℕ × List Grade)) (limit : ℕ) :
    (compute_leaderboard all limit).length ≤ limit ∧
    (compute_leaderboard all limit).Pairwise (fun a b => b.2 ≤ a.2) := by
  constructor
  · exact List.length_take_le limit (full_leaderboard all)
  · have hs : (full_leaderboard all).Pairwise lbOrder :=
      List.sorted_insertionSort lbOrder (leaderboardEntries all)
    exact hs.sublist (List.take_sublist limit (full_leaderboard all))

/-- C3: every entry of the leaderboard carries the plain arithmetic mean of
the scores of some grade list of that student in the input — the SQL
`avg(score)`, which never consults `Grade.weight` (the personal GPA,
`calculate_gpa`, uses the weighted average instead). -/
theorem C3_leaderboard_plain_average (all : List (ℕ × List Grade))
    (limit : ℕ) (sid : ℕ) (a : ℚ)
    (hmem : (sid, a) ∈ compute_leaderboard all limit) :
    ∃ grades, (sid, grades) ∈ all ∧ a = avgScore grades ∧
      avgScore grades = (grades.map (fun g => g.score)).sum / (grades.length : ℚ) := by
  have h1 : (sid, a) ∈ full_leaderboard all :=
    List.take_subset limit (full_leaderboard all) hmem
  have h2 : (sid, a) ∈ leaderboardEntries all :=
    (List.perm_insertionSort lbOrder (leaderboardEntries all)).subset h1
  obtain ⟨p, hp, heq⟩ := List.mem_map.mp h2
  obtain ⟨hfst, hsnd⟩ := Prod.mk.injEq .. ▸ heq
  refine ⟨p.2, ?_, hsnd.symm, rfl⟩
  have := List.mem_of_mem_filter hp
  rwa [← hfst]

/-- Witness for C3: a one-student leaderboard; the displayed value is the
plain average of that student's scores. -/
theorem C3_leaderboard_plain_average_witness :
    ∃ grades, ((1 : ℕ), grades) ∈ [((1 : ℕ), [(⟨1, "m", 90, 1⟩ : Grade)])]
      ∧ (90 : ℚ) = avgScore grades
      ∧ avgScore grades = (grades.map (fun g => g.score)).sum / (grades.length : ℚ) :=
  C3_leaderboard_plain_average [(1, [⟨1, "m", 90, 1⟩])] 5 1 90
    (by norm_num [compute_leaderboard, full_leaderboard, leaderboardEntries,
      avgScore, List.insertionSort, List.orderedInsert])

/-! ### Claim C4: the rank scan -/

lemma rankLoop_eq_zero_iff (sid : ℕ) :
    ∀ (l : List (ℕ × ℚ)) (idx : ℕ),
      rankLoop sid l idx = 0 ↔ sid ∉ l.map Prod.fst := by
  intro l
  induction l with
  | nil => intro idx; simp [rankLoop]
  | cons p rest ih =>
    intro idx
    by_cases hp : p.1 = sid
    · simp [rankLoop, hp]
    · simp only [rankLoop, if_neg hp, ih (idx + 1), List.map_cons,
        List.mem_cons, not_or]
      constructor
      · intro h; exact ⟨fun hc => hp hc.symm, h⟩
      · intro h; exact h.2

lemma rankLoop_spec (sid : ℕ) :
    ∀ (l : List (ℕ × ℚ)) (idx r : ℕ), rankLoop sid l idx = r → r ≠ 0 →
      idx < r ∧ r ≤ idx + l.length ∧ (l[r - idx - 1]?).map Prod.fst = some sid := by
  intro l
  induction l with
  | nil =>
    intro idx r hr h0
    exact absurd hr.symm h0
  | cons p rest ih =>
    intro idx r hr h0
    by_cases hp : p.1 = sid
    · rw [rankLoop, if_pos hp] at hr
      subst hr
      refine ⟨Nat.lt_succ_self idx, by simp [Nat.succ_le_succ], ?_⟩
      have : idx + 1 - idx - 1 = 0 := by omega
      simp [this, hp]
    · rw [rankLoop, if_neg hp] at hr
      obtain ⟨ha, hb, hc⟩ := ih (idx + 1) r hr h0
      refine ⟨by omega, by simp; omega, ?_⟩
      have hk : r - idx - 1 = (r - (idx + 1) - 1) + 1 := by omega
      rw [hk, List.getElem?_cons_succ]
      exact hc

/-- C4: `compute_rank` returns the sentinel (`none`, the code's `"--"`)
exactly when the student id does not occur in the ranked list, and
otherwise returns the 1-based position of the id: a rank `r` with
`1 ≤ r ≤ length`, the entry at position `r` (1-based) carrying the id. -/
theorem C4_rank_spec (sid : ℕ) (lb : List (ℕ × ℚ)) :
    (compute_rank sid lb = none ↔ sid ∉ lb.map Prod.fst) ∧
    (∀ r, compute_rank sid lb = some r →
      1 ≤ r ∧ r ≤ lb.length ∧ (lb[r - 1]?).map Prod.fst = some sid) := by
  constructor
  · rw [compute_rank]
    by_cases h : rankLoop sid lb 0 = 0
    · simp only [h, if_pos rfl]
      simpa using (rankLoop_eq_zero_iff sid lb 0).mp h
    · simp only [if_neg h]
      simp only [rankLoop_eq_zero_iff sid lb 0] at h
      simpa using h
  · intro r hr
    rw [compute_rank] at hr
    by_cases h : rankLoop sid lb 0 = 0
    · simp [h] at hr
    · simp only [if_neg h, Option.some.injEq] at hr
      obtain ⟨ha, hb, hc⟩ := rankLoop_spec sid lb 0 r hr (hr ▸ h)
      refine ⟨ha, by simpa using hb, ?_⟩
      simpa using hc

/-- Witness for C4: in the two-entry list `[(5, 90), (3, 70)]`, student 3
is found at rank 2, which lies in `[1, 2]` and points back at id 3. -/
theorem C4_rank_spec_witness :
    1 ≤ 2 ∧ 2 ≤ ([((5 : ℕ), (90 : ℚ)), (3, 70)]).length ∧
      (([((5 : ℕ), (90 : ℚ)), (3, 70)])[2 - 1]?).map Prod.fst = some 3 :=
  (C4_rank_spec 3 [(5, 90), (3, 70)]).2 2 (by norm_num [compute_rank, rankLoop])

/-! ### Claim C7: the three-student scenario -/

/-- The three-student fixture of the spec's scenario: students 1, 2 and 3
with plain average scores 90, 75 and 60. -/
def three_students : List (ℕ × List Grade) :=
  [(1, [⟨1, "math", 90, 1⟩]), (2, [⟨2, "math", 75, 1⟩]), (3, [⟨3, "math", 60, 1⟩])]

/-- C7: with averages 90, 75, 60, the limit-2 leaderboard is exactly the
two best students in descending order, and the rank of the third-place
student against the unlimited full list is 3. -/
theorem C7_three_student_scenario :
    compute_leaderboard three_students 2 = [(1, 90), (2, 75)] ∧
    compute_rank 3 (full_leaderboard three_students) = some 3 := by
  have hfull : full_leaderboard three_students = [(1, 90), (2, 75), (3, 60)] := by
    norm_num [three_students, full_leaderboard, leaderboardEntries, avgScore,
      List.insertionSort, List.orderedInsert, lbOrder]
  constructor
  · rw [compute_leaderboard, hfull]
    rfl
  · rw [hfull]
    norm_num [compute_rank, rankLoop]

/-! ### Claim C10: students with grades are always ranked -/

/-- C10: a student with at least one grade record always appears in the full
ranked list (so `compute_rank` does not return the sentinel for them), and
the leaderboard average ignores the grades' weights entirely — even a student
whose total weight is zero, whose personal GPA is therefore reported as
`0.0`, is still ranked. -/
theorem C10_graded_students_ranked (all : List (ℕ × List Grade)) (sid : ℕ)
    (grades : List Grade) (f : Grade → ℚ)
    (hmem : (sid, grades) ∈ all) (hne : grades ≠ []) :
    sid ∈ (full_leaderboard all).map Prod.fst ∧
    compute_rank sid (full_leaderboard all) ≠ none ∧
    avgScore (reweight f grades) = avgScore grades := by
  have hfil : (sid, grades) ∈ all.filter (fun p => !p.2.isEmpty) := by
    refine List.mem_filter.mpr ⟨hmem, ?_⟩
    simpa using hne
  have hent : (sid, avgScore grades) ∈ leaderboardEntries all :=
    List.mem_map.mpr ⟨(sid, grades), hfil, rfl⟩
  have hfl : (sid, avgScore grades) ∈ full_leaderboard all :=
    (List.perm_insertionSort lbOrder (leaderboardEntries all)).symm.subset hent
  have hm : sid ∈ (full_leaderboard all).map Prod.fst :=
    List.mem_map.mpr ⟨(sid, avgScore grades), hfl, rfl⟩
  refine ⟨hm, ?_, ?_⟩
  · intro hnone
    rw [compute_rank] at hnone
    by_cases h0 : rankLoop sid (full_leaderboard all) 0 = 0
    · exact absurd hm ((rankLoop_eq_zero_iff sid (full_leaderboard all) 0).mp h0)
    · simp [h0] at hnone
  · have hsc : (reweight f grades).map (fun g => g.score)
        = grades.map (fun g => g.score) := by
      rw [reweight, List.map_map]
      rfl
    rw [avgScore, avgScore, hsc, reweight, List.length_map]

/-- Witness for C10: a student whose only grade has weight `0` — personal
GPA reported `0.0` — still appears in the leaderboard and is ranked, and
the displayed average ignores the weight. -/
theorem C10_graded_students_ranked_witness :
    calculate_gpa [(⟨7, "m", 80, 0⟩ : Grade)] = 0 ∧
    (7 ∈ (full_leaderboard [((7 : ℕ), [(⟨7, "m", 80, 0⟩ : Grade)])]).map Prod.fst ∧
      compute_rank 7 (full_leaderboard [((7 : ℕ), [(⟨7, "m", 80, 0⟩ : Grade)])]) ≠ none ∧
      avgScore (reweight (constWeight 5) [(⟨7, "m", 80, 0⟩ : Grade)])
        = avgScore [(⟨7, "m", 80, 0⟩ : Grade)]) :=
  ⟨by norm_num [calculate_gpa, totalWeight],
    C10_graded_students_ranked [(7, [⟨7, "m", 80, 0⟩])] 7 [⟨7, "m", 80, 0⟩]
      (constWeight 5) (by simp) (by simp)⟩
